import Mathlib

set_option maxHeartbeats 1000000

/-!
Shallow embedding of the grid-quantized actor/solid physics engine of the
repository (files `src/physics/collision.rs` and `src/physics/mod.rs`).
`f32` coordinates are modelled as exact rationals; `i32` as integers.
-/

/-- Two-dimensional rational vector, modelling `bevy::math::Vec2`. -/
@[ext]
structure Vec2 where
  x : ℚ
  y : ℚ
  deriving DecidableEq

/-- Two-dimensional integer vector, modelling `bevy::math::IVec2`. -/
@[ext]
structure IVec2 where
  x : ℤ
  y : ℤ
  deriving DecidableEq

/-- The axis-aligned bounding box of `src/physics/collision.rs`: a local
integer offset `position` plus an integer `half_size`. -/
structure AABB where
  position : IVec2
  half_size : IVec2
  deriving DecidableEq

/-- `AABB::min` from `src/physics/collision.rs`. -/
def AABB.min (a : AABB) : IVec2 :=
  ⟨a.position.x - a.half_size.x, a.position.y - a.half_size.y⟩

/-- `AABB::max` from `src/physics/collision.rs`. -/
def AABB.max (a : AABB) : IVec2 :=
  ⟨a.position.x + a.half_size.x, a.position.y + a.half_size.y⟩

/-- `AABB::adjusted_position` from `src/physics/collision.rs`: translate the
local box by an entity position. -/
def AABB.adjusted_position (a : AABB) (pos : IVec2) : AABB :=
  ⟨⟨a.position.x + pos.x, a.position.y + pos.y⟩, a.half_size⟩

/-- `<AABB as Intersection<AABB>>::interescts` from `src/physics/collision.rs`
(the source spells it `interescts`): strict overlap of two boxes. -/
def interescts (box1 box2 : AABB) : Bool :=
  decide (box1.min.x < box2.max.x) && decide (box1.max.x > box2.min.x) &&
    decide (box1.min.y < box2.max.y) && decide (box1.max.y > box2.min.y)

/-- Rust `f32::round` (round half away from zero), on exact rationals;
models the `.round() as i32` conversions of the source. -/
def roundRust (q : ℚ) : ℤ :=
  if 0 ≤ q then ⌊q + 1 / 2⌋ else ⌈q - 1 / 2⌉

/-- Per-coordinate rounding, as in
`IVec2::new(pos.x.round() as i32, pos.y.round() as i32)` in both versions of
`check_for_collision`. -/
def roundVec (v : Vec2) : IVec2 :=
  ⟨roundRust v.x, roundRust v.y⟩

/-- `check_for_collision` from `src/physics/mod.rs` (the `bool` variant used
by `move_x`/`move_y`): the moving collider, placed at its rounded position, is
tested against every solid collider placed at its rounded position. -/
def check_for_collision (collider : AABB) (position : Vec2)
    (colliders : List (Vec2 × AABB)) : Bool :=
  colliders.any fun pc =>
    interescts (collider.adjusted_position (roundVec position))
      (pc.2.adjusted_position (roundVec pc.1))

/-- `Collision` from `src/physics/collision.rs`: the contact record carried by
a `CollisionResult`. -/
structure Collision where
  position : Vec2
  collider : AABB
  deriving DecidableEq

/-- `check_for_collision` from `src/physics/collision.rs` (the public variant
returning `Option<Collision>`).  Note that the source fills the record with
`position: *other_position` but `collider: collider.clone()` — the moving
collider that was passed in, not `other_collider`. -/
def check_for_collision_opt (collider : AABB) (position : Vec2) :
    List (Vec2 × AABB) → Option Collision
  | [] => none
  | pc :: rest =>
    if interescts (collider.adjusted_position (roundVec position))
        (pc.2.adjusted_position (roundVec pc.1)) then
      some ⟨pc.1, collider⟩
    else
      check_for_collision_opt collider position rest

/-- The unit-step `while` loop of `move_x` in `src/physics/mod.rs`.  The fuel
argument is `movement.natAbs` and `sign` is `movement.signum()`: each
committed unit step decrements `movement` by `sign`, so the loop runs at most
`movement.natAbs` times and stops early (returning the current position) as
soon as a solid blocks the next step. -/
def stepX (sign : ℤ) (collider : AABB) (solids : List (Vec2 × AABB)) :
    ℕ → Vec2 → Vec2
  | 0, pos => pos
  | n + 1, pos =>
    if check_for_collision collider ⟨pos.x + (sign : ℚ), pos.y⟩ solids then
      pos
    else
      stepX sign collider solids n ⟨pos.x + (sign : ℚ), pos.y⟩

/-- The unit-step `while` loop of `move_y` in `src/physics/mod.rs`. -/
def stepY (sign : ℤ) (collider : AABB) (solids : List (Vec2 × AABB)) :
    ℕ → Vec2 → Vec2
  | 0, pos => pos
  | n + 1, pos =>
    if check_for_collision collider ⟨pos.x, pos.y + (sign : ℚ)⟩ solids then
      pos
    else
      stepY sign collider solids n ⟨pos.x, pos.y + (sign : ℚ)⟩

/-- `move_x` from `src/physics/mod.rs`, returning the updated
`(position, remainder)` pair. -/
def move_x (move_amount : ℚ) (position remainder : Vec2) (collider : AABB)
    (solids : List (Vec2 × AABB)) : Vec2 × Vec2 :=
  let r := remainder.x + move_amount
  let movement : ℤ := roundRust r
  if movement ≠ 0 then
    (stepX movement.sign collider solids movement.natAbs position,
      ⟨r - (movement : ℚ), remainder.y⟩)
  else
    (position, ⟨r, remainder.y⟩)

/-- `move_y` from `src/physics/mod.rs`, returning the updated
`(position, remainder)` pair. -/
def move_y (move_amount : ℚ) (position remainder : Vec2) (collider : AABB)
    (solids : List (Vec2 × AABB)) : Vec2 × Vec2 :=
  let r := remainder.y + move_amount
  let movement : ℤ := roundRust r
  if movement ≠ 0 then
    (stepY movement.sign collider solids movement.natAbs position,
      ⟨remainder.x, r - (movement : ℚ)⟩)
  else
    (position, ⟨remainder.x, r⟩)

/-- The complete per-actor state written by `move_actor` in
`src/physics/mod.rs` for a `BodyType::Actor` entity: `Position`, the first
field of `Velocity`, the first field of `Acceleration`, and `Remainder`.
These four components are everything the sweep mutates. -/
@[ext]
structure ActorState where
  position : Vec2
  velocity : Vec2
  acceleration : Vec2
  remainder : Vec2
  deriving DecidableEq

/-- The body of `move_actor` from `src/physics/mod.rs` for one Actor entity,
against the snapshot `solids` of `(Position, AABB)` pairs of all
`BodyType::Solid` entities: X sweep, then Y sweep, then velocity is
overwritten with achieved motion over `dt` and acceleration is zeroed. -/
def move_actor (dt : ℚ) (solids : List (Vec2 × AABB)) (collider : AABB)
    (st : ActorState) : ActorState :=
  let p1 := move_x (st.velocity.x * dt) st.position st.remainder collider solids
  let p2 := move_y (st.velocity.y * dt) p1.1 p1.2 collider solids
  { position := p2.1
    velocity := ⟨(p2.1.x - st.position.x) / dt, (p2.1.y - st.position.y) / dt⟩
    acceleration := ⟨0, 0⟩
    remainder := p2.2 }

/-- The collider of the wall-stop scenario of the spec: zero offset,
half-extent one on each axis. -/
def unitBox : AABB := ⟨⟨0, 0⟩, ⟨1, 1⟩⟩

/-- The solid snapshot of the wall-stop scenario: one Solid at `x = 5` with
half-extent one. -/
def wallSolids : List (Vec2 × AABB) := [(⟨5, 0⟩, unitBox)]

/-! ### Basic properties of the rounding -/

theorem abs_sub_roundRust_le (q : ℚ) : |q - (roundRust q : ℚ)| ≤ 1 / 2 := by
  unfold roundRust
  split
  · have h1 : (⌊q + 1 / 2⌋ : ℚ) ≤ q + 1 / 2 := Int.floor_le _
    have h2 : (q + 1 / 2 : ℚ) < ⌊q + 1 / 2⌋ + 1 := Int.lt_floor_add_one _
    rw [abs_le]
    constructor <;> linarith
  · have h1 : (q - 1 / 2 : ℚ) ≤ ⌈q - 1 / 2⌉ := Int.le_ceil _
    have h2 : (⌈q - 1 / 2⌉ : ℚ) < q - 1 / 2 + 1 := Int.ceil_lt_add_one _
    rw [abs_le]
    constructor <;> linarith

theorem roundRust_eq_zero (q : ℚ) (h : |q| < 1 / 2) : roundRust q = 0 := by
  rw [abs_lt] at h
  unfold roundRust
  split
  · rw [Int.floor_eq_zero_iff]
    constructor <;> simp <;> linarith
  · rw [Int.ceil_eq_zero_iff]
    constructor <;> simp <;> linarith

theorem roundRust_ge (n : ℤ) (q : ℚ) (h0 : 0 ≤ q) (h : (n : ℚ) ≤ q) :
    n ≤ roundRust q := by
  unfold roundRust
  rw [if_pos h0]
  exact Int.le_floor.mpr (by linarith)

theorem roundRust_of_nonneg (q : ℚ) (z : ℤ) (h0 : 0 ≤ q)
    (h1 : (z : ℚ) ≤ q + 1 / 2) (h2 : q + 1 / 2 < z + 1) : roundRust q = z := by
  unfold roundRust
  rw [if_pos h0]
  exact Int.floor_eq_iff.mpr ⟨h1, h2⟩

theorem roundRust_of_neg (q : ℚ) (z : ℤ) (h0 : ¬ 0 ≤ q)
    (h1 : (z : ℚ) - 1 < q - 1 / 2) (h2 : q - 1 / 2 ≤ z) : roundRust q = z := by
  unfold roundRust
  rw [if_neg h0]
  exact Int.ceil_eq_iff.mpr ⟨h1, h2⟩

/-! ### Unfolding lemmas for the sweep -/

theorem check_opt_cons (collider : AABB) (p : Vec2) (pc : Vec2 × AABB)
    (l : List (Vec2 × AABB)) :
    check_for_collision_opt collider p (pc :: l) =
      if interescts (collider.adjusted_position (roundVec p))
          (pc.2.adjusted_position (roundVec pc.1)) then
        some ⟨pc.1, collider⟩
      else
        check_for_collision_opt collider p l := rfl

theorem stepX_succ (sign : ℤ) (collider : AABB) (solids : List (Vec2 × AABB))
    (n : ℕ) (pos : Vec2) :
    stepX sign collider solids (n + 1) pos =
      if check_for_collision collider ⟨pos.x + (sign : ℚ), pos.y⟩ solids then
        pos
      else
        stepX sign collider solids n ⟨pos.x + (sign : ℚ), pos.y⟩ := rfl

theorem stepY_succ (sign : ℤ) (collider : AABB) (solids : List (Vec2 × AABB))
    (n : ℕ) (pos : Vec2) :
    stepY sign collider solids (n + 1) pos =
      if check_for_collision collider ⟨pos.x, pos.y + (sign : ℚ)⟩ solids then
        pos
      else
        stepY sign collider solids n ⟨pos.x, pos.y + (sign : ℚ)⟩ := rfl

theorem stepX_stuck (sign : ℤ) (collider : AABB) (solids : List (Vec2 × AABB))
    (pos : Vec2)
    (h : check_for_collision collider ⟨pos.x + (sign : ℚ), pos.y⟩ solids = true) :
    ∀ n, stepX sign collider solids n pos = pos := by
  intro n
  cases n with
  | zero => rfl
  | succ n => rw [stepX_succ, if_pos h]

theorem move_x_rem (m : ℚ) (p rem : Vec2) (c : AABB)
    (sol : List (Vec2 × AABB)) :
    (move_x m p rem c sol).2 =
      ⟨(rem.x + m) - (roundRust (rem.x + m) : ℚ), rem.y⟩ := by
  simp only [move_x]
  split
  · rfl
  · next h =>
    push_neg at h
    simp [h]

theorem move_y_rem (m : ℚ) (p rem : Vec2) (c : AABB)
    (sol : List (Vec2 × AABB)) :
    (move_y m p rem c sol).2 =
      ⟨rem.x, (rem.y + m) - (roundRust (rem.y + m) : ℚ)⟩ := by
  simp only [move_y]
  split
  · rfl
  · next h =>
    push_neg at h
    simp [h]

theorem roundRust_zero : roundRust 0 = 0 :=
  roundRust_of_nonneg _ _ (by norm_num) (by norm_num) (by norm_num)

theorem roundVec_mk (qx qy : ℚ) (zx zy : ℤ) (hx : roundRust qx = zx)
    (hy : roundRust qy = zy) : roundVec ⟨qx, qy⟩ = ⟨zx, zy⟩ := by
  simp [roundVec, hx, hy]

theorem check_nil (c : AABB) (p : Vec2) : check_for_collision c p [] = false :=
  rfl

theorem check_singleton (c : AABB) (p sp : Vec2) (sc : AABB) :
    check_for_collision c p [(sp, sc)] =
      interescts (c.adjusted_position (roundVec p))
        (sc.adjusted_position (roundVec sp)) := by
  simp [check_for_collision]

theorem check_eq_false_iff (c : AABB) (p : Vec2) (sol : List (Vec2 × AABB)) :
    check_for_collision c p sol = false ↔
      ∀ pc ∈ sol,
        interescts (c.adjusted_position (roundVec p))
          (pc.2.adjusted_position (roundVec pc.1)) = false := by
  simp [check_for_collision]

theorem stepX_succ_commit (sign : ℤ) (c : AABB) (sol : List (Vec2 × AABB))
    (n : ℕ) (pos next : Vec2) (hnext : next = ⟨pos.x + (sign : ℚ), pos.y⟩)
    (hfree : check_for_collision c next sol = false) :
    stepX sign c sol (n + 1) pos = stepX sign c sol n next := by
  subst hnext
  rw [stepX_succ, if_neg (by simp [hfree])]

theorem stepY_succ_commit (sign : ℤ) (c : AABB) (sol : List (Vec2 × AABB))
    (n : ℕ) (pos next : Vec2) (hnext : next = ⟨pos.x, pos.y + (sign : ℚ)⟩)
    (hfree : check_for_collision c next sol = false) :
    stepY sign c sol (n + 1) pos = stepY sign c sol n next := by
  subst hnext
  rw [stepY_succ, if_neg (by simp [hfree])]

theorem move_x_eq_of_movement (m : ℚ) (p rem : Vec2) (c : AABB)
    (sol : List (Vec2 × AABB)) (z : ℤ) (hz : roundRust (rem.x + m) = z)
    (h0 : z ≠ 0) :
    move_x m p rem c sol =
      (stepX z.sign c sol z.natAbs p, ⟨(rem.x + m) - (z : ℚ), rem.y⟩) := by
  simp only [move_x, hz]
  rw [if_pos h0]

theorem move_x_zero_movement (m : ℚ) (p rem : Vec2) (c : AABB)
    (sol : List (Vec2 × AABB)) (hz : roundRust (rem.x + m) = 0) :
    move_x m p rem c sol = (p, ⟨rem.x + m, rem.y⟩) := by
  simp only [move_x, hz]
  rw [if_neg (by simp)]

theorem move_y_eq_of_movement (m : ℚ) (p rem : Vec2) (c : AABB)
    (sol : List (Vec2 × AABB)) (z : ℤ) (hz : roundRust (rem.y + m) = z)
    (h0 : z ≠ 0) :
    move_y m p rem c sol =
      (stepY z.sign c sol z.natAbs p, ⟨rem.x, (rem.y + m) - (z : ℚ)⟩) := by
  simp only [move_y, hz]
  rw [if_pos h0]

theorem move_y_zero_movement (m : ℚ) (p rem : Vec2) (c : AABB)
    (sol : List (Vec2 × AABB)) (hz : roundRust (rem.y + m) = 0) :
    move_y m p rem c sol = (p, ⟨rem.x, rem.y + m⟩) := by
  simp only [move_y, hz]
  rw [if_neg (by simp)]

theorem move_actor_eq (dt : ℚ) (solids : List (Vec2 × AABB)) (collider : AABB)
    (st : ActorState) (p1 p2 : Vec2 × Vec2)
    (h1 : move_x (st.velocity.x * dt) st.position st.remainder collider solids = p1)
    (h2 : move_y (st.velocity.y * dt) p1.1 p1.2 collider solids = p2) :
    move_actor dt solids collider st =
      ⟨p2.1, ⟨(p2.1.x - st.position.x) / dt, (p2.1.y - st.position.y) / dt⟩,
        ⟨0, 0⟩, p2.2⟩ := by
  simp only [move_actor, h1, h2]

theorem move_actor_position (dt : ℚ) (solids : List (Vec2 × AABB))
    (collider : AABB) (st : ActorState) :
    (move_actor dt solids collider st).position =
      (move_y (st.velocity.y * dt)
        (move_x (st.velocity.x * dt) st.position st.remainder collider solids).1
        (move_x (st.velocity.x * dt) st.position st.remainder collider solids).2
        collider solids).1 := rfl

theorem move_actor_remainder (dt : ℚ) (solids : List (Vec2 × AABB))
    (collider : AABB) (st : ActorState) :
    (move_actor dt solids collider st).remainder =
      (move_y (st.velocity.y * dt)
        (move_x (st.velocity.x * dt) st.position st.remainder collider solids).1
        (move_x (st.velocity.x * dt) st.position st.remainder collider solids).2
        collider solids).2 := rfl

theorem wall_run (m : ℕ) : stepX 1 unitBox wallSolids (m + 3) ⟨0, 0⟩ = ⟨3, 0⟩ := by
  have r0 : roundRust (0 : ℚ) = 0 := roundRust_zero
  have r1 : roundRust (1 : ℚ) = 1 :=
    roundRust_of_nonneg _ _ (by norm_num) (by norm_num) (by norm_num)
  have r2 : roundRust (2 : ℚ) = 2 :=
    roundRust_of_nonneg _ _ (by norm_num) (by norm_num) (by norm_num)
  have r3 : roundRust (3 : ℚ) = 3 :=
    roundRust_of_nonneg _ _ (by norm_num) (by norm_num) (by norm_num)
  have r4 : roundRust (4 : ℚ) = 4 :=
    roundRust_of_nonneg _ _ (by norm_num) (by norm_num) (by norm_num)
  have r5 : roundRust (5 : ℚ) = 5 :=
    roundRust_of_nonneg _ _ (by norm_num) (by norm_num) (by norm_num)
  have hwall : ∀ (p : Vec2) (ip : IVec2), roundVec p = ip →
      check_for_collision unitBox p wallSolids =
        interescts (unitBox.adjusted_position ip)
          (unitBox.adjusted_position ⟨5, 0⟩) := by
    intro p ip hp
    show check_for_collision unitBox p [(⟨5, 0⟩, unitBox)] = _
    rw [check_singleton, hp, roundVec_mk 5 0 5 0 r5 r0]
  have c1 : check_for_collision unitBox ⟨1, 0⟩ wallSolids = false := by
    rw [hwall ⟨1, 0⟩ ⟨1, 0⟩ (roundVec_mk 1 0 1 0 r1 r0)]
    decide
  have c2 : check_for_collision unitBox ⟨2, 0⟩ wallSolids = false := by
    rw [hwall ⟨2, 0⟩ ⟨2, 0⟩ (roundVec_mk 2 0 2 0 r2 r0)]
    decide
  have c3 : check_for_collision unitBox ⟨3, 0⟩ wallSolids = false := by
    rw [hwall ⟨3, 0⟩ ⟨3, 0⟩ (roundVec_mk 3 0 3 0 r3 r0)]
    decide
  have c4 : check_for_collision unitBox ⟨4, 0⟩ wallSolids = true := by
    rw [hwall ⟨4, 0⟩ ⟨4, 0⟩ (roundVec_mk 4 0 4 0 r4 r0)]
    decide
  rw [show m + 3 = m + 2 + 1 from rfl,
    stepX_succ_commit 1 unitBox wallSolids (m + 2) ⟨0, 0⟩ ⟨1, 0⟩
      (by norm_num [Vec2.mk.injEq]) c1,
    show m + 2 = m + 1 + 1 from rfl,
    stepX_succ_commit 1 unitBox wallSolids (m + 1) ⟨1, 0⟩ ⟨2, 0⟩
      (by norm_num [Vec2.mk.injEq]) c2,
    stepX_succ_commit 1 unitBox wallSolids m ⟨2, 0⟩ ⟨3, 0⟩
      (by norm_num [Vec2.mk.injEq]) c3]
  refine stepX_stuck 1 unitBox wallSolids ⟨3, 0⟩ ?_ m
  rw [show (⟨(⟨(3:ℚ), (0:ℚ)⟩ : Vec2).x + ((1 : ℤ) : ℚ),
      (⟨(3:ℚ), (0:ℚ)⟩ : Vec2).y⟩ : Vec2) = ⟨4, 0⟩ from by norm_num [Vec2.mk.injEq]]
  exact c4

/-! ### Claim theorems -/

/-- Claim C2 (code evaluation at the failing input): at the spec's wall-stop
scenario the sweep is blocked (the Actor stops at `x = 3`), yet the complete
output of `move_actor` — position, velocity, acceleration, remainder, which is
everything the system writes — carries no collision record: `move_x`/`move_y`
return no contact information and no `CollisionResult` is ever produced. -/
theorem wall_stop_sweep_output :
    move_actor 1 wallSolids unitBox ⟨⟨0, 0⟩, ⟨10, 0⟩, ⟨0, 0⟩, ⟨0, 0⟩⟩ =
      ⟨⟨3, 0⟩, ⟨3, 0⟩, ⟨0, 0⟩, ⟨0, 0⟩⟩ := by
  have hz : roundRust ((⟨(0:ℚ), (0:ℚ)⟩ : Vec2).x + 10 * 1) = 10 := by
    rw [show ((⟨(0:ℚ), (0:ℚ)⟩ : Vec2).x + 10 * 1 : ℚ) = 10 from by norm_num]
    exact roundRust_of_nonneg _ _ (by norm_num) (by norm_num) (by norm_num)
  have h1 : move_x ((10 : ℚ) * 1) ⟨0, 0⟩ ⟨0, 0⟩ unitBox wallSolids =
      (⟨3, 0⟩, ⟨0, 0⟩) := by
    rw [move_x_eq_of_movement _ _ _ _ _ 10 hz (by decide),
      show Int.sign 10 = 1 from rfl, show Int.natAbs 10 = 10 from rfl,
      show (10 : ℕ) = 7 + 3 from rfl, wall_run 7]
    norm_num [Prod.mk.injEq, Vec2.mk.injEq]
  have hz2 : roundRust ((⟨(0:ℚ), (0:ℚ)⟩ : Vec2).y + 0 * 1) = 0 := by
    rw [show ((⟨(0:ℚ), (0:ℚ)⟩ : Vec2).y + 0 * 1 : ℚ) = 0 from by norm_num]
    exact roundRust_zero
  have h2 : move_y ((0 : ℚ) * 1) ⟨3, 0⟩ ⟨0, 0⟩ unitBox wallSolids =
      (⟨3, 0⟩, ⟨0, 0⟩) := by
    rw [move_y_zero_movement _ _ _ _ _ hz2]
    norm_num [Prod.mk.injEq, Vec2.mk.injEq]
  rw [move_actor_eq 1 wallSolids unitBox ⟨⟨0, 0⟩, ⟨10, 0⟩, ⟨0, 0⟩, ⟨0, 0⟩⟩
    (⟨3, 0⟩, ⟨0, 0⟩) (⟨3, 0⟩, ⟨0, 0⟩) h1 h2]
  norm_num [ActorState.mk.injEq, Vec2.mk.injEq]

/-- Claim C3: in the wall-stop scenario — Actor at `x = 0` with zero-offset
half-extent-one collider and zero remainder, a Solid at `x = 5` with
half-extent one, and a velocity requesting at least ten units of X motion in
one tick — the Actor's position after the sweep is `x = 3`. -/
theorem wall_stop (vx dt : ℚ) (a : Vec2) (h : 10 ≤ vx * dt) :
    (move_actor dt wallSolids unitBox ⟨⟨0, 0⟩, ⟨vx, 0⟩, a, ⟨0, 0⟩⟩).position =
      ⟨3, 0⟩ := by
  have hq : ((⟨(0:ℚ), (0:ℚ)⟩ : Vec2).x + vx * dt : ℚ) = vx * dt := by norm_num
  set z : ℤ := roundRust ((⟨(0:ℚ), (0:ℚ)⟩ : Vec2).x + vx * dt) with hzdef
  have hz10 : 10 ≤ z := by
    rw [hzdef, hq]
    exact roundRust_ge 10 _ (by linarith) (by push_cast; linarith)
  have hsign : z.sign = 1 := Int.sign_eq_one_of_pos (by omega)
  obtain ⟨k, hk⟩ : ∃ k : ℕ, z.natAbs = k + 3 := ⟨z.natAbs - 3, by omega⟩
  have h1 : move_x (vx * dt) ⟨0, 0⟩ ⟨0, 0⟩ unitBox wallSolids =
      (⟨3, 0⟩, ⟨(⟨(0:ℚ), (0:ℚ)⟩ : Vec2).x + vx * dt - (z : ℚ),
        (⟨(0:ℚ), (0:ℚ)⟩ : Vec2).y⟩) := by
    rw [move_x_eq_of_movement _ _ _ _ _ z hzdef.symm (by omega), hsign, hk,
      wall_run k]
  rw [move_actor_position]
  dsimp only
  rw [h1]
  dsimp only
  have hz2 : roundRust ((⟨(⟨(0:ℚ), (0:ℚ)⟩ : Vec2).x + vx * dt - (z : ℚ),
      (⟨(0:ℚ), (0:ℚ)⟩ : Vec2).y⟩ : Vec2).y + 0 * dt) = 0 := by
    rw [show ((⟨(⟨(0:ℚ), (0:ℚ)⟩ : Vec2).x + vx * dt - (z : ℚ),
      (⟨(0:ℚ), (0:ℚ)⟩ : Vec2).y⟩ : Vec2).y + 0 * dt : ℚ) = 0 from by norm_num]
    exact roundRust_zero
  rw [move_y_zero_movement _ _ _ _ _ hz2]

/-- Claim C3 witness: the scenario at `vx = 10`, `dt = 1`. -/
theorem wall_stop_witness :
    (move_actor 1 wallSolids unitBox
      ⟨⟨0, 0⟩, ⟨10, 0⟩, ⟨0, 0⟩, ⟨0, 0⟩⟩).position = ⟨3, 0⟩ :=
  wall_stop 10 1 ⟨0, 0⟩ (by norm_num)

/-- Claim C5: after every completed sweep (`move_x` then `move_y` inside
`move_actor`, over exact rationals) both remainder components are strictly
smaller than one in absolute value. -/
theorem remainder_bound (dt : ℚ) (solids : List (Vec2 × AABB))
    (collider : AABB) (st : ActorState) :
    |(move_actor dt solids collider st).remainder.x| < 1 ∧
      |(move_actor dt solids collider st).remainder.y| < 1 := by
  rw [move_actor_remainder, move_y_rem, move_x_rem]
  dsimp only
  constructor
  · have hb := abs_sub_roundRust_le (st.remainder.x + st.velocity.x * dt)
    linarith
  · have hb := abs_sub_roundRust_le (st.remainder.y + st.velocity.y * dt)
    linarith

/-- Claim C6: `interescts` on two boxes is true exactly when the four strict
comparisons hold; in particular boxes that merely touch
(`a.max.x = b.min.x`) do not intersect. -/
theorem interescts_iff (a b : AABB) :
    (interescts a b = true ↔
      (a.min.x < b.max.x ∧ a.max.x > b.min.x ∧ a.min.y < b.max.y ∧
        a.max.y > b.min.y)) ∧
    (a.max.x = b.min.x → interescts a b = false) := by
  constructor
  · simp [interescts, and_assoc]
  · intro h
    have hfalse : decide (a.max.x > b.min.x) = false := by simp [h]
    simp [interescts, hfalse]

/-- Claim C6 witness: two half-extent-one boxes whose boundaries touch at
`x = 1` do not intersect. -/
theorem interescts_iff_witness :
    interescts ⟨⟨0, 0⟩, ⟨1, 1⟩⟩ ⟨⟨2, 0⟩, ⟨1, 1⟩⟩ = false :=
  (interescts_iff ⟨⟨0, 0⟩, ⟨1, 1⟩⟩ ⟨⟨2, 0⟩, ⟨1, 1⟩⟩).2 (by decide)

/-- Claim C7 counterexample: a zero half-extent collider placed at the center
of a half-extent-one box does overlap it — the claim that a degenerate
collider never overlaps anything is false on the code. -/
theorem zero_extent_cx :
    interescts ((⟨⟨0, 0⟩, ⟨0, 0⟩⟩ : AABB).adjusted_position ⟨0, 0⟩)
      (unitBox.adjusted_position ⟨0, 0⟩) = true := by decide

/-- Claim C7 (amended): a zero half-extent collider overlaps another collider
iff its world center lies strictly inside the other's world box; it never
overlaps when its center is outside or on the boundary (and in particular two
zero-extent colliders never overlap). -/
theorem zero_extent_overlap (c o : AABB) (p q : IVec2)
    (h : c.half_size = ⟨0, 0⟩) :
    interescts (c.adjusted_position p) (o.adjusted_position q) = true ↔
      ((o.adjusted_position q).min.x < c.position.x + p.x ∧
        c.position.x + p.x < (o.adjusted_position q).max.x ∧
        (o.adjusted_position q).min.y < c.position.y + p.y ∧
        c.position.y + p.y < (o.adjusted_position q).max.y) := by
  simp only [interescts, AABB.adjusted_position, AABB.min, AABB.max, h,
    Bool.and_eq_true, decide_eq_true_eq, gt_iff_lt]
  omega

/-- Claim C7 witness: the amended characterization at a concrete input. -/
theorem zero_extent_overlap_witness :
    interescts ((⟨⟨0, 0⟩, ⟨0, 0⟩⟩ : AABB).adjusted_position ⟨2, 3⟩)
      (unitBox.adjusted_position ⟨2, 3⟩) = true :=
  (zero_extent_overlap ⟨⟨0, 0⟩, ⟨0, 0⟩⟩ unitBox ⟨2, 3⟩ ⟨2, 3⟩ rfl).mpr
    (by decide)

/-- Claim C8: each axis sweep leaves
`remainder = (old_remainder + displacement) - round(old_remainder +
displacement)` on its axis, whether or not the unit-step loop was blocked
early — a blocked sweep does not restore its unconsumed steps. -/
theorem sweep_remainder_formula (m : ℚ) (p rem : Vec2) (c : AABB)
    (sol : List (Vec2 × AABB)) :
    (move_x m p rem c sol).2 =
        ⟨(rem.x + m) - (roundRust (rem.x + m) : ℚ), rem.y⟩ ∧
      (move_y m p rem c sol).2 =
        ⟨rem.x, (rem.y + m) - (roundRust (rem.y + m) : ℚ)⟩ :=
  ⟨move_x_rem m p rem c sol, move_y_rem m p rem c sol⟩

theorem stepX_zero (sign : ℤ) (c : AABB) (sol : List (Vec2 × AABB))
    (pos : Vec2) : stepX sign c sol 0 pos = pos := rfl

theorem stepY_zero (sign : ℤ) (c : AABB) (sol : List (Vec2 × AABB))
    (pos : Vec2) : stepY sign c sol 0 pos = pos := rfl

theorem stepX_result (sign : ℤ) (c : AABB) (sol : List (Vec2 × AABB)) :
    ∀ (n : ℕ) (pos : Vec2),
      stepX sign c sol n pos = pos ∨
        check_for_collision c (stepX sign c sol n pos) sol = false := by
  intro n
  induction n with
  | zero => intro pos; exact Or.inl rfl
  | succ n ih =>
    intro pos
    rw [stepX_succ]
    by_cases h : check_for_collision c ⟨pos.x + (sign : ℚ), pos.y⟩ sol = true
    · rw [if_pos h]
      exact Or.inl rfl
    · rw [if_neg h]
      rcases ih ⟨pos.x + (sign : ℚ), pos.y⟩ with h2 | h2
      · rw [h2]
        right
        simpa using h
      · exact Or.inr h2

theorem stepY_result (sign : ℤ) (c : AABB) (sol : List (Vec2 × AABB)) :
    ∀ (n : ℕ) (pos : Vec2),
      stepY sign c sol n pos = pos ∨
        check_for_collision c (stepY sign c sol n pos) sol = false := by
  intro n
  induction n with
  | zero => intro pos; exact Or.inl rfl
  | succ n ih =>
    intro pos
    rw [stepY_succ]
    by_cases h : check_for_collision c ⟨pos.x, pos.y + (sign : ℚ)⟩ sol = true
    · rw [if_pos h]
      exact Or.inl rfl
    · rw [if_neg h]
      rcases ih ⟨pos.x, pos.y + (sign : ℚ)⟩ with h2 | h2
      · rw [h2]
        right
        simpa using h
      · exact Or.inr h2

theorem move_x_result (m : ℚ) (p rem : Vec2) (c : AABB)
    (sol : List (Vec2 × AABB)) :
    (move_x m p rem c sol).1 = p ∨
      check_for_collision c (move_x m p rem c sol).1 sol = false := by
  simp only [move_x]
  split
  · dsimp only
    exact stepX_result _ c sol _ p
  · exact Or.inl rfl

theorem move_y_result (m : ℚ) (p rem : Vec2) (c : AABB)
    (sol : List (Vec2 × AABB)) :
    (move_y m p rem c sol).1 = p ∨
      check_for_collision c (move_y m p rem c sol).1 sol = false := by
  simp only [move_y]
  split
  · dsimp only
    exact stepY_result _ c sol _ p
  · exact Or.inl rfl

/-- Claim C1: the sweep never commits a unit step into a Solid — the final
position of `move_actor` is either the start position or a position the
collision check cleared; consequently, for an Actor that starts
non-overlapping, after the sweep its world box (the program's box: the
collider adjusted by the rounded position) overlaps no Solid's world box. -/
theorem sweep_non_penetration (dt : ℚ) (solids : List (Vec2 × AABB))
    (collider : AABB) (st : ActorState) :
    ((move_actor dt solids collider st).position = st.position ∨
      check_for_collision collider (move_actor dt solids collider st).position
        solids = false) ∧
    (check_for_collision collider st.position solids = false →
      ∀ pc ∈ solids,
        interescts
          (collider.adjusted_position
            (roundVec (move_actor dt solids collider st).position))
          (pc.2.adjusted_position (roundVec pc.1)) = false) := by
  have key : (move_actor dt solids collider st).position = st.position ∨
      check_for_collision collider (move_actor dt solids collider st).position
        solids = false := by
    rw [move_actor_position]
    rcases move_y_result (st.velocity.y * dt)
      (move_x (st.velocity.x * dt) st.position st.remainder collider solids).1
      (move_x (st.velocity.x * dt) st.position st.remainder collider solids).2
      collider solids with h2 | h2
    · rw [h2]
      exact move_x_result (st.velocity.x * dt) st.position st.remainder
        collider solids
    · exact Or.inr h2
  refine ⟨key, fun h0 => ?_⟩
  have hfin : check_for_collision collider
      (move_actor dt solids collider st).position solids = false := by
    rcases key with h | h
    · rw [h]
      exact h0
    · exact h
  exact (check_eq_false_iff collider _ solids).mp hfin

/-- Claim C1 witness: the wall-stop scenario starts non-overlapping, and after
the sweep the Actor's box does not overlap the Solid at `x = 5`. -/
theorem sweep_non_penetration_witness :
    interescts
      (unitBox.adjusted_position
        (roundVec (move_actor 1 wallSolids unitBox
          ⟨⟨0, 0⟩, ⟨10, 0⟩, ⟨0, 0⟩, ⟨0, 0⟩⟩).position))
      (unitBox.adjusted_position (roundVec ⟨5, 0⟩)) = false := by
  have r0 : roundRust (0 : ℚ) = 0 := roundRust_zero
  have r5 : roundRust (5 : ℚ) = 5 :=
    roundRust_of_nonneg _ _ (by norm_num) (by norm_num) (by norm_num)
  have h0 : check_for_collision unitBox (⟨0, 0⟩ : Vec2) wallSolids = false := by
    show check_for_collision unitBox ⟨0, 0⟩ [(⟨5, 0⟩, unitBox)] = false
    rw [check_singleton, roundVec_mk 0 0 0 0 r0 r0, roundVec_mk 5 0 5 0 r5 r0]
    decide
  exact (sweep_non_penetration 1 wallSolids unitBox
    ⟨⟨0, 0⟩, ⟨10, 0⟩, ⟨0, 0⟩, ⟨0, 0⟩⟩).2 h0 (⟨5, 0⟩, unitBox)
    (List.mem_singleton.mpr rfl)

/-- Claim C4 (amended): an Actor with zero velocity, zero acceleration, and a
remainder strictly inside one half unit on each axis keeps its position over
any number of ticks of the sweep. -/
theorem idle_no_motion (dt : ℚ) (solids : List (Vec2 × AABB)) (collider : AABB)
    (st : ActorState) (hv : st.velocity = ⟨0, 0⟩) (ha : st.acceleration = ⟨0, 0⟩)
    (hx : |st.remainder.x| < 1 / 2) (hy : |st.remainder.y| < 1 / 2) (n : ℕ) :
    ((move_actor dt solids collider)^[n] st).position = st.position := by
  have h1 : move_x (st.velocity.x * dt) st.position st.remainder collider
      solids = (st.position, st.remainder) := by
    have hz : roundRust (st.remainder.x + st.velocity.x * dt) = 0 := by
      rw [hv, show (st.remainder.x + (⟨(0:ℚ), (0:ℚ)⟩ : Vec2).x * dt : ℚ) =
        st.remainder.x from by simp]
      exact roundRust_eq_zero _ hx
    rw [move_x_zero_movement _ _ _ _ _ hz, hv]
    simp [Prod.mk.injEq]
  have h2 : move_y (st.velocity.y * dt) st.position st.remainder collider
      solids = (st.position, st.remainder) := by
    have hz : roundRust (st.remainder.y + st.velocity.y * dt) = 0 := by
      rw [hv, show (st.remainder.y + (⟨(0:ℚ), (0:ℚ)⟩ : Vec2).y * dt : ℚ) =
        st.remainder.y from by simp]
      exact roundRust_eq_zero _ hy
    rw [move_y_zero_movement _ _ _ _ _ hz, hv]
    simp [Prod.mk.injEq]
  have hfix : move_actor dt solids collider st = st := by
    rw [move_actor_eq dt solids collider st (st.position, st.remainder)
      (st.position, st.remainder) h1 h2]
    apply ActorState.ext <;> simp [hv, ha]
  rw [Function.iterate_fixed hfix n]

/-- Claim C4 witness: an idle Actor at the origin stays put for five ticks. -/
theorem idle_no_motion_witness :
    ((move_actor 1 [] unitBox)^[5]
      (⟨⟨0, 0⟩, ⟨0, 0⟩, ⟨0, 0⟩, ⟨0, 0⟩⟩ : ActorState)).position = ⟨0, 0⟩ :=
  idle_no_motion 1 [] unitBox ⟨⟨0, 0⟩, ⟨0, 0⟩, ⟨0, 0⟩, ⟨0, 0⟩⟩ rfl rfl
    (by norm_num) (by norm_num) 5

/-- Claim C4 counterexample: a remainder of exactly `-1/2` — reachable in one
tick from a zero remainder with velocity `5/2` — makes a zero-velocity,
zero-acceleration Actor drift one unit left in a single tick, because Rust
rounds halves away from zero. -/
theorem idle_no_motion_cx :
    (move_actor 1 [] unitBox
        ⟨⟨0, 0⟩, ⟨0, 0⟩, ⟨0, 0⟩, ⟨-(1 / 2), 0⟩⟩).position = ⟨-1, 0⟩ ∧
      (⟨-1, 0⟩ : Vec2) ≠ ⟨0, 0⟩ ∧
      (move_actor 1 [] unitBox
        ⟨⟨0, 0⟩, ⟨5 / 2, 0⟩, ⟨0, 0⟩, ⟨0, 0⟩⟩).remainder = ⟨-(1 / 2), 0⟩ := by
  refine ⟨?_, ?_, ?_⟩
  · have hz : roundRust ((⟨-(1 / 2 : ℚ), (0 : ℚ)⟩ : Vec2).x + 0 * 1) = -1 := by
      rw [show ((⟨-(1 / 2 : ℚ), (0 : ℚ)⟩ : Vec2).x + 0 * 1 : ℚ) = -(1 / 2)
        from by norm_num]
      exact roundRust_of_neg _ _ (by norm_num) (by norm_num) (by norm_num)
    rw [move_actor_position]
    dsimp only
    rw [move_x_eq_of_movement _ _ _ _ _ (-1) hz (by decide),
      show Int.sign (-1) = -1 from rfl, show Int.natAbs (-1) = 1 from rfl,
      stepX_succ, if_neg (by simp [check_nil]), stepX_zero]
    dsimp only
    rw [move_y_zero_movement _ _ _ _ _ (by simp [roundRust_zero])]
    norm_num [Vec2.mk.injEq]
  · norm_num [Vec2.mk.injEq]
  · rw [move_actor_remainder]
    dsimp only
    rw [move_y_rem, move_x_rem]
    dsimp only
    rw [show ((0 : ℚ) + 5 / 2 * 1 : ℚ) = 5 / 2 from by norm_num,
      show ((0 : ℚ) + 0 * 1 : ℚ) = 0 from by norm_num,
      show roundRust (5 / 2 : ℚ) = 3 from
        roundRust_of_nonneg _ _ (by norm_num) (by norm_num) (by norm_num),
      roundRust_zero]
    norm_num [Vec2.mk.injEq]

/-- Claim C9 counterexample: when the Solid's collider (half-extent two) and
the Actor's collider (half-extent one) differ, the contact record returned by
the `Option`-returning `check_for_collision` carries the moving Actor's own
collider, not the blocking Solid's. -/
theorem contact_record_cx :
    check_for_collision_opt unitBox ⟨0, 0⟩ [(⟨0, 0⟩, ⟨⟨0, 0⟩, ⟨2, 2⟩⟩)] =
        some ⟨⟨0, 0⟩, unitBox⟩ ∧
      unitBox ≠ (⟨⟨0, 0⟩, ⟨2, 2⟩⟩ : AABB) := by
  constructor
  · rw [check_opt_cons]
    dsimp only
    rw [roundVec_mk 0 0 0 0 roundRust_zero roundRust_zero]
    rw [if_pos (show interescts (unitBox.adjusted_position ⟨0, 0⟩)
      ((⟨⟨0, 0⟩, ⟨2, 2⟩⟩ : AABB).adjusted_position ⟨0, 0⟩) = true
      from by decide)]
  · decide

/-- Claim C9 (amended): when the solids preceding the first blocking Solid in
snapshot order do not overlap and that Solid does, the returned contact record
carries the blocking Solid's position together with the moving collider that
was passed in (the Actor's own collider, not the Solid's). -/
theorem contact_record_first_hit (collider : AABB) (p : Vec2)
    (pre : List (Vec2 × AABB)) (op : Vec2) (oc : AABB)
    (rest : List (Vec2 × AABB))
    (hpre : ∀ pc ∈ pre,
      interescts (collider.adjusted_position (roundVec p))
        (pc.2.adjusted_position (roundVec pc.1)) = false)
    (hhit : interescts (collider.adjusted_position (roundVec p))
      (oc.adjusted_position (roundVec op)) = true) :
    check_for_collision_opt collider p (pre ++ (op, oc) :: rest) =
      some ⟨op, collider⟩ := by
  induction pre with
  | nil =>
    rw [List.nil_append, check_opt_cons]
    dsimp only
    rw [if_pos hhit]
  | cons pc pre ih =>
    have h1 := hpre pc (List.mem_cons_self pc pre)
    rw [List.cons_append, check_opt_cons, h1]
    simp only [Bool.false_eq_true, if_false]
    exact ih fun x hx => hpre x (List.mem_cons_of_mem pc hx)

/-- Claim C9 witness: with a non-overlapping Solid first in the snapshot and a
blocking Solid second, the record holds the second Solid's position and the
moving collider. -/
theorem contact_record_first_hit_witness :
    check_for_collision_opt unitBox ⟨0, 0⟩
        [(⟨100, 100⟩, unitBox), (⟨1, 0⟩, unitBox)] =
      some ⟨⟨1, 0⟩, unitBox⟩ := by
  have r0 : roundRust (0 : ℚ) = 0 := roundRust_zero
  have r1 : roundRust (1 : ℚ) = 1 :=
    roundRust_of_nonneg _ _ (by norm_num) (by norm_num) (by norm_num)
  have r100 : roundRust (100 : ℚ) = 100 :=
    roundRust_of_nonneg _ _ (by norm_num) (by norm_num) (by norm_num)
  refine contact_record_first_hit unitBox ⟨0, 0⟩ [(⟨100, 100⟩, unitBox)]
    ⟨1, 0⟩ unitBox [] ?_ ?_
  · intro pc hpc
    rw [List.mem_singleton.mp hpc]
    dsimp only
    rw [roundVec_mk 0 0 0 0 r0 r0, roundVec_mk 100 100 100 100 r100 r100]
    decide
  · rw [roundVec_mk 0 0 0 0 r0 r0, roundVec_mk 1 0 1 0 r1 r0]
    decide

/-- Claim C10: the collision check sees positions only through per-coordinate
rounding — two moving positions with the same rounded coordinates, against two
snapshots that agree up to rounding of the solid positions (with identical
colliders), give the same outcome. -/
theorem check_quantized (collider : AABB) (p q : Vec2)
    (sol1 sol2 : List (Vec2 × AABB)) (hpq : roundVec p = roundVec q)
    (hsol : List.Forall₂
      (fun a b => roundVec a.1 = roundVec b.1 ∧ a.2 = b.2) sol1 sol2) :
    check_for_collision collider p sol1 = check_for_collision collider q sol2 := by
  induction hsol with
  | nil => rfl
  | cons hab htail ih =>
    simp only [check_for_collision, List.any_cons] at ih ⊢
    rw [hab.1, hab.2, ih, hpq]

/-- Claim C10 witness: sub-unit position differences are invisible — the
fractional positions round to the same integers, so the outcomes coincide. -/
theorem check_quantized_witness :
    check_for_collision unitBox ⟨3 / 10, 0⟩ [(⟨1 / 4, 0⟩, unitBox)] =
      check_for_collision unitBox ⟨-(1 / 5), 2 / 5⟩ [(⟨0, 1 / 3⟩, unitBox)] := by
  have r0 : roundRust (0 : ℚ) = 0 := roundRust_zero
  have ra : roundRust (3 / 10 : ℚ) = 0 :=
    roundRust_of_nonneg _ _ (by norm_num) (by norm_num) (by norm_num)
  have rb : roundRust (-(1 / 5) : ℚ) = 0 :=
    roundRust_of_neg _ _ (by norm_num) (by norm_num) (by norm_num)
  have rc : roundRust (2 / 5 : ℚ) = 0 :=
    roundRust_of_nonneg _ _ (by norm_num) (by norm_num) (by norm_num)
  have rd : roundRust (1 / 4 : ℚ) = 0 :=
    roundRust_of_nonneg _ _ (by norm_num) (by norm_num) (by norm_num)
  have re : roundRust (1 / 3 : ℚ) = 0 :=
    roundRust_of_nonneg _ _ (by norm_num) (by norm_num) (by norm_num)
  exact check_quantized unitBox ⟨3 / 10, 0⟩ ⟨-(1 / 5), 2 / 5⟩ _ _
    (by rw [roundVec_mk _ _ 0 0 ra r0, roundVec_mk _ _ 0 0 rb rc])
    (List.Forall₂.cons ⟨by rw [roundVec_mk _ _ 0 0 rd r0, roundVec_mk _ _ 0 0 r0 re], rfl⟩
      List.Forall₂.nil)
